import Mathlib

/-!
Verification of `parse_ros2_logs.py` — a ROS2 log line parser built on
pyparsing.  The grammar is
`Suppress('[') + Word(header) + Suppress(']')` three times, then
`Suppress(':') + Word(message)`, applied through
`ParserElement.parse_string` with its default settings
(tabs expanded, leading whitespace skipped before every element,
no requirement that the whole input be consumed).
The store class `ParseRos2Logs` accumulates successful parses in
`__log_data` and projects them as lists or dicts.
-/

/-- pyparsing `alphanums`: ASCII letters followed by digits. -/
def alphanums : List Char :=
  "ABCDEFGHIJKLMNOPQRSTUVWXYZabcdefghijklmnopqrstuvwxyz0123456789".toList

/-- Character set of the three bracketed header fields:
`alphanums + '!"#$%&\'()*+,-./:;<=>?@\\^_`\x7b|\x7d~'` (no whitespace, no brackets). -/
def headerWordChars : List Char :=
  alphanums ++ "!\"#$%&'()*+,-./:;<=>?@\\^_`\x7b|\x7d~".toList

/-- Character set of the message field:
`alphanums + ' !"#$%&\'()*+,-./:;<=>?@[\\]^_`\x7b|\x7d~'` (space and brackets included). -/
def messageWordChars : List Char :=
  alphanums ++ " !\"#$%&'()*+,-./:;<=>?@[\\]^_`\x7b|\x7d~".toList

/-- pyparsing `ParserElement.DEFAULT_WHITE_CHARS = " \n\t"`. -/
def wsChars : List Char := [' ', '\n', '\t']

/-- Skip leading whitespace, as every pyparsing element does before matching. -/
def skipWs (s : List Char) : List Char :=
  s.dropWhile (fun c => wsChars.contains c)

/-- pyparsing `Literal(c)` (under `Suppress`): skip whitespace, then require `c`. -/
def litMatch (c : Char) (s : List Char) : Option (List Char) :=
  match skipWs s with
  | [] => none
  | d :: rest => if d = c then some rest else none

/-- pyparsing `Word(cs)`: skip whitespace, then match a maximal non-empty
run of characters from `cs`. -/
def wordMatch (cs : List Char) (s : List Char) : Option (List Char × List Char) :=
  if (skipWs s).takeWhile (fun c => cs.contains c) = [] then none
  else some ((skipWs s).takeWhile (fun c => cs.contains c),
             (skipWs s).dropWhile (fun c => cs.contains c))

/-- One parsed log line (the named results of the pyparsing `ParseResults`). -/
structure LogRecord where
  log_severity : String
  timestamp : String
  node_name : String
  message : String
deriving DecidableEq

/-- `ParseResults.as_list()`: the four tokens in match order. -/
def LogRecord.as_list (r : LogRecord) : List String :=
  [r.log_severity, r.timestamp, r.node_name, r.message]

/-- `ParseResults.as_dict()`: insertion-ordered mapping from the field names. -/
def LogRecord.as_dict (r : LogRecord) : List (String × String) :=
  [("log_severity", r.log_severity), ("timestamp", r.timestamp),
   ("node_name", r.node_name), ("message", r.message)]

/-- `header = Suppress('[') + Word(headerWordChars) + Suppress(']')`. -/
def headerMatch (s : List Char) : Option (List Char × List Char) :=
  (litMatch '[' s).bind fun s1 =>
    (wordMatch headerWordChars s1).bind fun p =>
      (litMatch ']' p.2).map fun s2 => (p.1, s2)

/-- `log = header + header + header + Suppress(':') + Word(messageWordChars)`. -/
def logMatch (s : List Char) : Option (LogRecord × List Char) :=
  (headerMatch s).bind fun p1 =>
    (headerMatch p1.2).bind fun p2 =>
      (headerMatch p2.2).bind fun p3 =>
        (litMatch ':' p3.2).bind fun s4 =>
          (wordMatch messageWordChars s4).map fun pm =>
            ({ log_severity := String.mk p1.1, timestamp := String.mk p2.1,
               node_name := String.mk p3.1, message := String.mk pm.1 }, pm.2)

/-- Python `str.expandtabs()` (tab size 8), which pyparsing applies to the
input before matching: each tab becomes spaces up to the next multiple of 8;
the column restarts after a newline or carriage return. -/
def expandtabsFrom : List Char → Nat → List Char
  | [], _ => []
  | c :: rest, col =>
    if c = '\t' then
      List.replicate (8 - col % 8) ' ' ++ expandtabsFrom rest (col + (8 - col % 8))
    else if c = '\n' ∨ c = '\r' then
      c :: expandtabsFrom rest 0
    else
      c :: expandtabsFrom rest (col + 1)

def expandtabs (s : List Char) : List Char := expandtabsFrom s 0

/-- `self.__pattern.parse_string(target)` with default `parse_all=False`:
expand tabs, match from the start, ignore whatever input remains. -/
def parse_string (target : String) : Option LogRecord :=
  (logMatch (expandtabs target.toList)).map Prod.fst

/-- The state of a `ParseRos2Logs` instance: `__log_data` and `__dict_keys`. -/
structure ParseRos2Logs where
  log_data : List LogRecord
  dict_keys : List String
deriving DecidableEq

/-- `ParseRos2Logs.__init__`. -/
def mkParseRos2Logs : ParseRos2Logs :=
  { log_data := [],
    dict_keys := ["log_severity", "timestamp", "node_name", "message"] }

/-- Return value of `parse_log`: the Python code returns the empty list `[]`
on `ParseException` and the `ParseResults` on success. -/
inductive ParseLogReturn where
  | emptyList : ParseLogReturn
  | result : LogRecord → ParseLogReturn
deriving DecidableEq

/-- One element of the list returned by `parse_logs`: the empty string `''`
for a failed line, the `ParseResults` for a successful one. -/
inductive ParseLogsItem where
  | emptyString : ParseLogsItem
  | result : LogRecord → ParseLogsItem
deriving DecidableEq

/-- `ParseRos2Logs.parse_log`: parse one line; on success append the result
to `__log_data` and return it, on failure return `[]` leaving the state as is. -/
def parse_log (self : ParseRos2Logs) (target : String) :
    ParseRos2Logs × ParseLogReturn :=
  match parse_string target with
  | none => (self, ParseLogReturn.emptyList)
  | some r =>
    ({ self with log_data := self.log_data ++ [r] }, ParseLogReturn.result r)

/-- `ParseRos2Logs.parse_logs`: parse each line in order; successes are
appended both to the returned list and to `__log_data`, failures contribute
`''` to the returned list only. -/
def parse_logs (self : ParseRos2Logs) (targets : List String) :
    ParseRos2Logs × List ParseLogsItem :=
  match targets with
  | [] => (self, [])
  | t :: ts =>
    match parse_string t with
    | none =>
      let rest := parse_logs self ts
      (rest.1, ParseLogsItem.emptyString :: rest.2)
    | some r =>
      let rest := parse_logs { self with log_data := self.log_data ++ [r] } ts
      (rest.1, ParseLogsItem.result r :: rest.2)

/-- `ParseRos2Logs.get_logs_as_dict`: a method is modelled as
state in, (state, value) out; the body only reads `self.__log_data`. -/
def get_logs_as_dict (self : ParseRos2Logs) :
    ParseRos2Logs × List (List (String × String)) :=
  (self, self.log_data.map LogRecord.as_dict)

/-- `ParseRos2Logs.get_logs_as_list`: same method shape; read-only body. -/
def get_logs_as_list (self : ParseRos2Logs) :
    ParseRos2Logs × List (List String) :=
  (self, self.log_data.map LogRecord.as_list)

/-- The element that `parse_logs` produces for one input line. -/
def lineItem (t : String) : ParseLogsItem :=
  match parse_string t with
  | none => ParseLogsItem.emptyString
  | some r => ParseLogsItem.result r

/-- `len` of a `parse_log` return value: `len([]) = 0`,
`len(ParseResults)` = number of matched tokens. -/
def ParseLogReturn.fieldCount : ParseLogReturn → Nat
  | ParseLogReturn.emptyList => 0
  | ParseLogReturn.result r => r.as_list.length

/-- `len` of a `parse_logs` element: `len('') = 0`,
`len(ParseResults)` = number of matched tokens. -/
def ParseLogsItem.fieldCount : ParseLogsItem → Nat
  | ParseLogsItem.emptyString => 0
  | ParseLogsItem.result r => r.as_list.length

/-- States of a `ParseRos2Logs` instance reachable from construction by
`parse_log` / `parse_logs` calls (the projection methods do not mutate). -/
inductive Reachable : ParseRos2Logs → Prop where
  | init : Reachable mkParseRos2Logs
  | stepOne : ∀ st t, Reachable st → Reachable (parse_log st t).1
  | stepMany : ∀ st ts, Reachable st → Reachable (parse_logs st ts).1

/-- Outcome of `main`: either the usage message was printed to stdout and
the process exited with the given status before any `ParseRos2Logs` was
constructed, or a store was built, the file's lines parsed, and the listed
lines printed. -/
inductive MainOutcome where
  | usage : String → Nat → MainOutcome
  | finished : ParseRos2Logs → List String → MainOutcome
deriving DecidableEq

/-- The per-entry output of the final loop of `main`: each field followed
by one space, concatenated. -/
def printedLine (fields : List String) : String :=
  String.join (fields.map (fun f => f ++ " "))

/-- `main`, with its external collaborators (`sys.argv`, `os.path.isfile`,
`os.path.abspath`, `open(...).readlines()`) passed in as parameters:
`argv[1]` missing (IndexError) or `isfile(abspath(argv[1]))` false
(ValueError) both land in the `except` branch, which prints the usage
message and exits with status 0. -/
def mainEntry (argv : List String) (isfile : String → Bool)
    (abspath : String → String) (readlines : String → List String) :
    MainOutcome :=
  match argv[1]? with
  | none => MainOutcome.usage "Usage: parse_ros2_logs.py <log file path>" 0
  | some arg =>
    if isfile (abspath arg) then
      let st := (parse_logs mkParseRos2Logs (readlines (abspath arg))).1
      MainOutcome.finished st ((get_logs_as_list st).2.map printedLine)
    else
      MainOutcome.usage "Usage: parse_ros2_logs.py <log file path>" 0

/-- A concrete `isfile` collaborator under which no path exists. -/
def noFile : String → Bool := fun _ => false

/-- A concrete `abspath` collaborator that leaves paths unchanged. -/
def idPath : String → String := fun p => p

/-- A concrete `readlines` collaborator returning no lines. -/
def noLines : String → List String := fun _ => []

/-- Template of a grammatical log line, with an arbitrary trailing rest:
`[s] [t] [n]: m` followed by `junk`. -/
def logLineOf (s t n m junk : List Char) : List Char :=
  '[' :: (s ++ ']' :: ' ' :: '[' ::
    (t ++ ']' :: ' ' :: '[' ::
      (n ++ ']' :: ':' :: ' ' :: (m ++ junk))))

/-! Character-set facts, all decided on the concrete lists. -/

theorem hdrNotWs : ∀ c ∈ headerWordChars, wsChars.contains c = false := by decide

theorem hdrNoTab : ∀ c ∈ headerWordChars, c ≠ '\t' := by decide

theorem msgNoTab : ∀ c ∈ messageWordChars, c ≠ '\t' := by decide

theorem msgWsIsSpace : ∀ c ∈ messageWordChars, c = ' ' ∨ wsChars.contains c = false := by
  decide

/-! Behaviour of the basic matchers on cons cells. -/

theorem skipWs_cons_not (c : Char) (l : List Char) (h : wsChars.contains c = false) :
    skipWs (c :: l) = c :: l := by
  have hmem : c ∉ wsChars := by simpa using h
  simp [skipWs, List.dropWhile_cons, hmem]

theorem skipWs_cons_ws (c : Char) (l : List Char) (h : wsChars.contains c = true) :
    skipWs (c :: l) = skipWs l := by
  have hmem : c ∈ wsChars := by simpa using h
  simp [skipWs, List.dropWhile_cons, hmem]

theorem litMatch_cons_eq (c : Char) (l : List Char) (h : wsChars.contains c = false) :
    litMatch c (c :: l) = some l := by
  simp [litMatch, skipWs_cons_not c l h]

theorem litMatch_cons_ne (c d : Char) (l : List Char)
    (hws : wsChars.contains d = false) (hne : d ≠ c) :
    litMatch c (d :: l) = none := by
  simp [litMatch, skipWs_cons_not d l hws, hne]

theorem litMatch_cons_ws (c d : Char) (l : List Char) (h : wsChars.contains d = true) :
    litMatch c (d :: l) = litMatch c l := by
  simp [litMatch, skipWs_cons_ws d l h]

theorem takeWhile_append_exact (p : Char → Bool) (tok rest : List Char)
    (h1 : ∀ c ∈ tok, p c = true)
    (h2 : ∀ d, rest.head? = some d → p d = false) :
    (tok ++ rest).takeWhile p = tok ∧ (tok ++ rest).dropWhile p = rest := by
  induction tok with
  | nil =>
    cases rest with
    | nil => simp
    | cons d r => simp [List.takeWhile_cons, List.dropWhile_cons, h2 d rfl]
  | cons c tl ih =>
    have hc : p c = true := h1 c (by simp)
    have ihpair := ih (fun x hx => h1 x (by simp [hx]))
    simp only [List.cons_append, List.takeWhile_cons, List.dropWhile_cons, hc,
      if_true, ihpair.1, ihpair.2, and_self, true_and]

theorem head_mem_of_head? (l : List Char) (d : Char) (h : l.head? = some d) : d ∈ l := by
  cases l with
  | nil => cases h
  | cons c tl =>
    simp only [List.head?_cons, Option.some.injEq] at h
    subst h
    exact List.mem_cons_self c tl

theorem wordMatch_exact (cs tok rest : List Char)
    (hne : tok ≠ [])
    (hsub : ∀ c ∈ tok, cs.contains c = true)
    (hhead : ∀ d, tok.head? = some d → wsChars.contains d = false)
    (hrest : ∀ d, rest.head? = some d → cs.contains d = false) :
    wordMatch cs (tok ++ rest) = some (tok, rest) := by
  cases tok with
  | nil => exact absurd rfl hne
  | cons c tl =>
    have hws : wsChars.contains c = false := hhead c rfl
    have key := takeWhile_append_exact (fun x => cs.contains x) (c :: tl) rest hsub hrest
    unfold wordMatch
    rw [show skipWs (c :: tl ++ rest) = c :: tl ++ rest by
          rw [List.cons_append]; exact skipWs_cons_not c _ hws,
        key.1, key.2]
    simp

theorem wordMatch_cons_ws (cs : List Char) (d : Char) (l : List Char)
    (h : wsChars.contains d = true) :
    wordMatch cs (d :: l) = wordMatch cs l := by
  unfold wordMatch
  rw [skipWs_cons_ws d l h]

theorem wordMatch_cons_fail (cs : List Char) (d : Char) (l : List Char)
    (hws : wsChars.contains d = false) (hout : cs.contains d = false) :
    wordMatch cs (d :: l) = none := by
  have hmem : d ∉ cs := by simpa using hout
  unfold wordMatch
  rw [skipWs_cons_not d l hws]
  simp [List.takeWhile_cons, hmem]

theorem headerMatch_exact (s rest : List Char)
    (hne : s ≠ []) (hsub : ∀ c ∈ s, c ∈ headerWordChars) :
    headerMatch ('[' :: (s ++ ']' :: rest)) = some (s, rest) := by
  unfold headerMatch
  rw [litMatch_cons_eq '[' _ (by decide)]
  simp only [Option.some_bind']
  rw [wordMatch_exact headerWordChars s (']' :: rest) hne
    (fun c hc => by simp [hsub c hc])
    (fun d hd => hdrNotWs d (hsub d (head_mem_of_head? s d hd)))
    (fun d hd => by
      simp only [List.head?_cons, Option.some.injEq] at hd
      subst hd
      decide)]
  simp only [Option.some_bind']
  rw [litMatch_cons_eq ']' _ (by decide)]
  rfl

theorem headerMatch_cons_ws (d : Char) (l : List Char) (h : wsChars.contains d = true) :
    headerMatch (d :: l) = headerMatch l := by
  unfold headerMatch
  rw [litMatch_cons_ws '[' d l h]

theorem expandtabsFrom_eq_self (l : List Char) (h : ∀ c ∈ l, c ≠ '\t') :
    ∀ col, expandtabsFrom l col = l := by
  induction l with
  | nil => intro col; rfl
  | cons c rest ih =>
    intro col
    have hc : ¬ c = '\t' := h c (by simp)
    have ih2 := ih (fun x hx => h x (by simp [hx]))
    unfold expandtabsFrom
    by_cases hnl : c = '\n' ∨ c = '\r' <;> simp [hc, hnl, ih2]

/-- Head of a list drawn from the message character set and not a space is
not pyparsing whitespace. -/
theorem msgHead_not_ws (m : List Char) (hsub : ∀ c ∈ m, c ∈ messageWordChars)
    (hsp : m.head? ≠ some ' ') :
    ∀ d, m.head? = some d → wsChars.contains d = false := by
  intro d hd
  rcases msgWsIsSpace d (hsub d (head_mem_of_head? m d hd)) with h | h
  · exact absurd (h ▸ hd) hsp
  · exact h

/-- The central success lemma: on the template `[s] [t] [n]: m ++ junk`,
with the tokens drawn from the grammar's character sets, `m` not starting
with a space and `junk` not starting with a message character, the pattern
matches and captures exactly `(s, t, n, m)`, leaving `junk` unconsumed. -/
theorem logMatch_template (s t n m junk : List Char)
    (hs : s ≠ []) (hssub : ∀ c ∈ s, c ∈ headerWordChars)
    (ht : t ≠ []) (htsub : ∀ c ∈ t, c ∈ headerWordChars)
    (hn : n ≠ []) (hnsub : ∀ c ∈ n, c ∈ headerWordChars)
    (hm : m ≠ []) (hmsub : ∀ c ∈ m, c ∈ messageWordChars)
    (hmhead : m.head? ≠ some ' ')
    (hjunk : ∀ d, junk.head? = some d → messageWordChars.contains d = false) :
    logMatch (logLineOf s t n m junk) =
      some ({ log_severity := String.mk s, timestamp := String.mk t,
              node_name := String.mk n, message := String.mk m }, junk) := by
  unfold logMatch logLineOf
  rw [headerMatch_exact s _ hs hssub]
  simp only [Option.some_bind']
  rw [headerMatch_cons_ws ' ' _ (by decide), headerMatch_exact t _ ht htsub]
  simp only [Option.some_bind']
  rw [headerMatch_cons_ws ' ' _ (by decide), headerMatch_exact n _ hn hnsub]
  simp only [Option.some_bind']
  rw [litMatch_cons_eq ':' _ (by decide)]
  simp only [Option.some_bind']
  rw [wordMatch_cons_ws _ ' ' _ (by decide)]
  rw [wordMatch_exact messageWordChars m junk hm
    (fun c hc => by simp [hmsub c hc])
    (msgHead_not_ws m hmsub hmhead) hjunk]
  rfl

theorem hdrNoLb : ∀ c ∈ headerWordChars, c ≠ '[' := by decide

theorem hdrNoRb : ∀ c ∈ headerWordChars, c ≠ ']' := by decide

theorem noTab_append {a b : List Char} (h1 : ∀ c ∈ a, c ≠ '\t')
    (h2 : ∀ c ∈ b, c ≠ '\t') : ∀ c ∈ a ++ b, c ≠ '\t' := by
  intro c hc
  rcases List.mem_append.mp hc with h | h
  · exact h1 c h
  · exact h2 c h

theorem noTab_cons {d : Char} {l : List Char} (h1 : d ≠ '\t')
    (h2 : ∀ c ∈ l, c ≠ '\t') : ∀ c ∈ d :: l, c ≠ '\t' := by
  intro c hc
  rcases List.mem_cons.mp hc with rfl | h
  · exact h1
  · exact h2 c h

theorem hdrTok_noTab {s : List Char} (h : ∀ c ∈ s, c ∈ headerWordChars) :
    ∀ c ∈ s, c ≠ '\t' := fun c hc => hdrNoTab c (h c hc)

theorem msgTok_noTab {m : List Char} (h : ∀ c ∈ m, c ∈ messageWordChars) :
    ∀ c ∈ m, c ≠ '\t' := fun c hc => msgNoTab c (h c hc)

/-- If the raw line has no tab, `parse_string` is `logMatch` on its characters. -/
theorem parse_string_eq_some_of (x : List Char) (hnt : ∀ c ∈ x, c ≠ '\t')
    (r : LogRecord) (rest : List Char) (h : logMatch x = some (r, rest)) :
    parse_string (String.mk x) = some r := by
  unfold parse_string expandtabs
  rw [show (String.mk x).toList = x from rfl, expandtabsFrom_eq_self x hnt 0, h]
  rfl

theorem parse_string_eq_none_of (x : List Char) (hnt : ∀ c ∈ x, c ≠ '\t')
    (h : logMatch x = none) :
    parse_string (String.mk x) = none := by
  unfold parse_string expandtabs
  rw [show (String.mk x).toList = x from rfl, expandtabsFrom_eq_self x hnt 0, h]
  rfl

theorem parse_log_eq_of_none (st : ParseRos2Logs) (x : String)
    (h : parse_string x = none) :
    parse_log st x = (st, ParseLogReturn.emptyList) := by
  unfold parse_log
  rw [h]

theorem parse_log_eq_of_some (st : ParseRos2Logs) (x : String) (r : LogRecord)
    (h : parse_string x = some r) :
    parse_log st x =
      ({ st with log_data := st.log_data ++ [r] }, ParseLogReturn.result r) := by
  unfold parse_log
  rw [h]

/-- A failed first element makes the whole sequence fail. -/
theorem logMatch_fail_first (x : List Char) (h : headerMatch x = none) :
    logMatch x = none := by
  unfold logMatch
  rw [h]
  rfl

theorem headerMatch_fail_head (d : Char) (l : List Char)
    (hws : wsChars.contains d = false) (hne : d ≠ '[') :
    headerMatch (d :: l) = none := by
  unfold headerMatch
  rw [litMatch_cons_ne '[' d l hws hne]
  rfl

/-- A header whose token is followed by something that is neither a header
character nor `]` fails at the closing bracket. -/
theorem headerMatch_fail_after_word (s rest : List Char)
    (hne : s ≠ []) (hsub : ∀ c ∈ s, c ∈ headerWordChars)
    (hrest : ∀ d, rest.head? = some d → headerWordChars.contains d = false)
    (hfail : litMatch ']' rest = none) :
    headerMatch ('[' :: (s ++ rest)) = none := by
  unfold headerMatch
  rw [litMatch_cons_eq '[' _ (by decide)]
  simp only [Option.some_bind']
  rw [wordMatch_exact headerWordChars s rest hne
    (fun c hc => by simp [hsub c hc])
    (fun d hd => hdrNotWs d (hsub d (head_mem_of_head? s d hd))) hrest]
  simp only [Option.some_bind']
  rw [hfail]
  rfl

/-- Missing separator colon: the three headers match but the colon literal
fails on the message (which does not itself begin with a colon). -/
theorem logMatch_fail_nocolon (s t n m : List Char)
    (hs : s ≠ []) (hssub : ∀ c ∈ s, c ∈ headerWordChars)
    (ht : t ≠ []) (htsub : ∀ c ∈ t, c ∈ headerWordChars)
    (hn : n ≠ []) (hnsub : ∀ c ∈ n, c ∈ headerWordChars)
    (hmsub : ∀ c ∈ m, c ∈ messageWordChars)
    (hmsp : m.head? ≠ some ' ') (hmcol : m.head? ≠ some ':') :
    logMatch ('[' :: (s ++ ']' :: ' ' :: '[' ::
      (t ++ ']' :: ' ' :: '[' :: (n ++ ']' :: ' ' :: m)))) = none := by
  unfold logMatch
  rw [headerMatch_exact s _ hs hssub]
  simp only [Option.some_bind']
  rw [headerMatch_cons_ws ' ' _ (by decide), headerMatch_exact t _ ht htsub]
  simp only [Option.some_bind']
  rw [headerMatch_cons_ws ' ' _ (by decide), headerMatch_exact n _ hn hnsub]
  simp only [Option.some_bind']
  rw [litMatch_cons_ws ':' ' ' _ (by decide)]
  cases m with
  | nil => rfl
  | cons c tl =>
    rw [litMatch_cons_ne ':' c tl
      (msgHead_not_ws (c :: tl) hmsub hmsp c rfl)
      (fun hEq => hmcol (by simp [hEq]))]
    rfl

/-- Empty message: everything up to the colon matches, then `Word` finds no
message character. -/
theorem logMatch_fail_emptymsg (s t n : List Char)
    (hs : s ≠ []) (hssub : ∀ c ∈ s, c ∈ headerWordChars)
    (ht : t ≠ []) (htsub : ∀ c ∈ t, c ∈ headerWordChars)
    (hn : n ≠ []) (hnsub : ∀ c ∈ n, c ∈ headerWordChars) :
    logMatch (logLineOf s t n [] []) = none := by
  unfold logMatch logLineOf
  rw [headerMatch_exact s _ hs hssub]
  simp only [Option.some_bind']
  rw [headerMatch_cons_ws ' ' _ (by decide), headerMatch_exact t _ ht htsub]
  simp only [Option.some_bind']
  rw [headerMatch_cons_ws ' ' _ (by decide), headerMatch_exact n _ hn hnsub]
  simp only [Option.some_bind']
  rw [litMatch_cons_eq ':' _ (by decide)]
  simp only [Option.some_bind']
  rw [wordMatch_cons_ws _ ' ' _ (by decide)]
  rfl

/-- The behaviour of `parse_logs` in closed form: the returned list is the
per-line image of `lineItem`, the corpus gets exactly the successes appended
in submission order, and the key list is untouched. -/
theorem parse_logs_spec (targets : List String) : ∀ st : ParseRos2Logs,
    (parse_logs st targets).2 = targets.map lineItem ∧
    (parse_logs st targets).1.log_data =
      st.log_data ++ targets.filterMap parse_string ∧
    (parse_logs st targets).1.dict_keys = st.dict_keys := by
  induction targets with
  | nil => intro st; simp [parse_logs]
  | cons t ts ih =>
    intro st
    unfold parse_logs
    cases h : parse_string t with
    | none =>
      simp [h, lineItem, (ih st).1, (ih st).2.1, (ih st).2.2, List.filterMap_cons]
    | some r =>
      have hrec := ih { st with log_data := st.log_data ++ [r] }
      simp [h, lineItem, hrec.1, hrec.2.1, hrec.2.2, List.filterMap_cons]

theorem parse_log_dict_keys (st : ParseRos2Logs) (t : String) :
    (parse_log st t).1.dict_keys = st.dict_keys := by
  unfold parse_log
  cases parse_string t <;> rfl

example : parse_string "[INFO] [1673415247.564669534] [minimal_publisher]: Publishing: \"Hello World: 0\"" =
    some { log_severity := "INFO", timestamp := "1673415247.564669534",
           node_name := "minimal_publisher", message := "Publishing: \"Hello World: 0\"" } := by
  decide

example : parse_string "[WARN] [100] [node]: " = none := by decide

example : parse_string "INFO [100] [node]: hi" = none := by decide

example : parse_string "[A ] [1] [n]: x" =
    some { log_severity := "A", timestamp := "1", node_name := "n", message := "x" } := by
  decide

example : parse_string "[A] [1] [n]:  x" =
    some { log_severity := "A", timestamp := "1", node_name := "n", message := "x" } := by
  decide

example : parse_string "[A] [1] [n]: x\x01y" =
    some { log_severity := "A", timestamp := "1", node_name := "n", message := "x" } := by
  decide

/-- Tab-freeness of the whole line template, from tab-freeness of its parts. -/
theorem logLineOf_noTab (s t n m junk : List Char)
    (hssub : ∀ c ∈ s, c ∈ headerWordChars)
    (htsub : ∀ c ∈ t, c ∈ headerWordChars)
    (hnsub : ∀ c ∈ n, c ∈ headerWordChars)
    (hmsub : ∀ c ∈ m, c ∈ messageWordChars)
    (hjunk : ∀ c ∈ junk, c ≠ '\t') :
    ∀ c ∈ logLineOf s t n m junk, c ≠ '\t' := by
  unfold logLineOf
  exact noTab_cons (by decide) (noTab_append (hdrTok_noTab hssub)
    (noTab_cons (by decide) (noTab_cons (by decide) (noTab_cons (by decide)
      (noTab_append (hdrTok_noTab htsub)
        (noTab_cons (by decide) (noTab_cons (by decide) (noTab_cons (by decide)
          (noTab_append (hdrTok_noTab hnsub)
            (noTab_cons (by decide) (noTab_cons (by decide) (noTab_cons (by decide)
              (noTab_append (msgTok_noTab hmsub) hjunk)))))))))))))

/-- C1 (amended): for every line of the exact shape `[s] [t] [n]: m` where
s, t, n are non-empty tokens over the header character set (printable ASCII
without whitespace and brackets) and m is non-empty, drawn from the allowed
message character set, and does not begin with a space, `parse_log` succeeds,
appends the entry, and returns the four fields in the order (s, t, n, m). -/
theorem parse_log_success_template (st : ParseRos2Logs) (s t n m : List Char)
    (hs : s ≠ []) (hssub : ∀ c ∈ s, c ∈ headerWordChars)
    (ht : t ≠ []) (htsub : ∀ c ∈ t, c ∈ headerWordChars)
    (hn : n ≠ []) (hnsub : ∀ c ∈ n, c ∈ headerWordChars)
    (hm : m ≠ []) (hmsub : ∀ c ∈ m, c ∈ messageWordChars)
    (hmhead : m.head? ≠ some ' ') :
    parse_log st (String.mk (logLineOf s t n m [])) =
      ({ st with log_data := st.log_data ++
          [{ log_severity := String.mk s, timestamp := String.mk t,
             node_name := String.mk n, message := String.mk m }] },
       ParseLogReturn.result
          { log_severity := String.mk s, timestamp := String.mk t,
            node_name := String.mk n, message := String.mk m }) :=
  parse_log_eq_of_some st _ _
    (parse_string_eq_some_of _
      (logLineOf_noTab s t n m [] hssub htsub hnsub hmsub (fun c hc => nomatch hc))
      _ []
      (logMatch_template s t n m [] hs hssub ht htsub hn hnsub hm hmsub hmhead
        (fun d hd => nomatch hd)))

/-- C1 witness: the well-formed line `[A] [1] [n]: x`. -/
theorem parse_log_success_template_witness :
    parse_log mkParseRos2Logs (String.mk (logLineOf ['A'] ['1'] ['n'] ['x'] [])) =
      ({ mkParseRos2Logs with log_data := mkParseRos2Logs.log_data ++
          [{ log_severity := String.mk ['A'], timestamp := String.mk ['1'],
             node_name := String.mk ['n'], message := String.mk ['x'] }] },
       ParseLogReturn.result
          { log_severity := String.mk ['A'], timestamp := String.mk ['1'],
            node_name := String.mk ['n'], message := String.mk ['x'] }) :=
  parse_log_success_template mkParseRos2Logs ['A'] ['1'] ['n'] ['x']
    (by decide) (by decide) (by decide) (by decide) (by decide) (by decide)
    (by decide) (by decide) (by decide)

/-- C1 counterexample: with s = "A", t = "1", n = "n" and m = " x" (non-empty,
drawn entirely from the allowed message character set), the line
`[A] [1] [n]:  x` parses but the message comes back as "x", not " x": the
fields returned are not (s, t, n, m). -/
theorem parse_log_template_strips_leading_space :
    (parse_log mkParseRos2Logs "[A] [1] [n]:  x").2 =
      ParseLogReturn.result
        { log_severity := "A", timestamp := "1", node_name := "n", message := "x" } ∧
    ("x" : String) ≠ " x" := by
  decide


/-- C2 (amended): a line missing the opening or the closing bracket of its
first field, a line missing the separator colon (when the message does not
itself begin with a colon), a line with whitespace separating two runs of
token characters inside a bracket field, and a line with an empty message
all make `parse_log` return the failure marker with the corpus unchanged
(same length and contents).  Whitespace merely adjacent to a bracket inside
a field is skipped by the matcher and does not cause failure. -/
theorem parse_log_malformed (st : ParseRos2Logs) (s s2 t n m : List Char)
    (hs : s ≠ []) (hssub : ∀ c ∈ s, c ∈ headerWordChars)
    (hs2 : s2 ≠ []) (hs2sub : ∀ c ∈ s2, c ∈ headerWordChars)
    (ht : t ≠ []) (htsub : ∀ c ∈ t, c ∈ headerWordChars)
    (hn : n ≠ []) (hnsub : ∀ c ∈ n, c ∈ headerWordChars)
    (hm : m ≠ []) (hmsub : ∀ c ∈ m, c ∈ messageWordChars)
    (hmsp : m.head? ≠ some ' ') (hmcol : m.head? ≠ some ':') :
    parse_log st (String.mk (s ++ ']' :: ' ' :: '[' ::
        (t ++ ']' :: ' ' :: '[' :: (n ++ ']' :: ':' :: ' ' :: m)))) =
      (st, ParseLogReturn.emptyList) ∧
    parse_log st (String.mk ('[' :: (s ++ ' ' :: '[' ::
        (t ++ ']' :: ' ' :: '[' :: (n ++ ']' :: ':' :: ' ' :: m))))) =
      (st, ParseLogReturn.emptyList) ∧
    parse_log st (String.mk ('[' :: (s ++ ']' :: ' ' :: '[' ::
        (t ++ ']' :: ' ' :: '[' :: (n ++ ']' :: ' ' :: m))))) =
      (st, ParseLogReturn.emptyList) ∧
    parse_log st (String.mk ('[' :: (s ++ ' ' :: (s2 ++ ']' :: ' ' :: '[' ::
        (t ++ ']' :: ' ' :: '[' :: (n ++ ']' :: ':' :: ' ' :: m)))))) =
      (st, ParseLogReturn.emptyList) ∧
    parse_log st (String.mk (logLineOf s t n [] [])) =
      (st, ParseLogReturn.emptyList) := by
  have tTab : ∀ c ∈ t, c ≠ '\t' := hdrTok_noTab htsub
  have nTab : ∀ c ∈ n, c ≠ '\t' := hdrTok_noTab hnsub
  have sTab : ∀ c ∈ s, c ≠ '\t' := hdrTok_noTab hssub
  have s2Tab : ∀ c ∈ s2, c ≠ '\t' := hdrTok_noTab hs2sub
  have mTab : ∀ c ∈ m, c ≠ '\t' := msgTok_noTab hmsub
  have tail2 : ∀ c ∈ (']' :: ':' :: ' ' :: m), c ≠ '\t' :=
    noTab_cons (by decide) (noTab_cons (by decide) (noTab_cons (by decide) mTab))
  have tail3 : ∀ c ∈ ('[' :: (n ++ ']' :: ':' :: ' ' :: m)), c ≠ '\t' :=
    noTab_cons (by decide) (noTab_append nTab tail2)
  have tail4 : ∀ c ∈ (']' :: ' ' :: '[' :: (n ++ ']' :: ':' :: ' ' :: m)), c ≠ '\t' :=
    noTab_cons (by decide) (noTab_cons (by decide) tail3)
  have tail5 : ∀ c ∈ (t ++ ']' :: ' ' :: '[' :: (n ++ ']' :: ':' :: ' ' :: m)),
      c ≠ '\t' := noTab_append tTab tail4
  have tail6 : ∀ c ∈ (']' :: ' ' :: '[' ::
      (t ++ ']' :: ' ' :: '[' :: (n ++ ']' :: ':' :: ' ' :: m))), c ≠ '\t' :=
    noTab_cons (by decide) (noTab_cons (by decide) (noTab_cons (by decide) tail5))
  have headSp : ∀ d : Char, ((' ' :: '[' ::
      (t ++ ']' :: ' ' :: '[' :: (n ++ ']' :: ':' :: ' ' :: m))).head? = some d) →
      headerWordChars.contains d = false := by
    intro d hd
    simp only [List.head?_cons, Option.some.injEq] at hd
    subst hd
    decide
  refine ⟨?_, ?_, ?_, ?_, ?_⟩
  · -- missing opening bracket of the first field
    refine parse_log_eq_of_none st _ (parse_string_eq_none_of _
      (noTab_append sTab tail6) ?_)
    apply logMatch_fail_first
    cases s with
    | nil => exact absurd rfl hs
    | cons c tl =>
      rw [List.cons_append]
      exact headerMatch_fail_head c _
        (hdrNotWs c (hssub c (by simp)))
        (hdrNoLb c (hssub c (by simp)))
  · -- missing closing bracket of the first field
    refine parse_log_eq_of_none st _ (parse_string_eq_none_of _
      (noTab_cons (by decide) (noTab_append sTab
        (noTab_cons (by decide) (noTab_cons (by decide) tail5)))) ?_)
    apply logMatch_fail_first
    apply headerMatch_fail_after_word s _ hs hssub headSp
    rw [litMatch_cons_ws ']' ' ' _ (by decide)]
    exact litMatch_cons_ne ']' '[' _ (by decide) (by decide)
  · -- missing separator colon
    refine parse_log_eq_of_none st _ (parse_string_eq_none_of _ ?_ ?_)
    · exact noTab_cons (by decide) (noTab_append sTab (noTab_cons (by decide)
        (noTab_cons (by decide) (noTab_cons (by decide) (noTab_append tTab
          (noTab_cons (by decide) (noTab_cons (by decide) (noTab_cons (by decide)
            (noTab_append nTab (noTab_cons (by decide)
              (noTab_cons (by decide) mTab)))))))))))
    · exact logMatch_fail_nocolon s t n m hs hssub ht htsub hn hnsub hmsub hmsp hmcol
  · -- whitespace between token characters inside the first bracket field
    refine parse_log_eq_of_none st _ (parse_string_eq_none_of _
      (noTab_cons (by decide) (noTab_append sTab
        (noTab_cons (by decide) (noTab_append s2Tab tail6)))) ?_)
    apply logMatch_fail_first
    apply headerMatch_fail_after_word s _ hs hssub
    · intro d hd
      simp only [List.head?_cons, Option.some.injEq] at hd
      subst hd
      decide
    · rw [litMatch_cons_ws ']' ' ' _ (by decide)]
      cases s2 with
      | nil => exact absurd rfl hs2
      | cons c tl =>
        rw [List.cons_append]
        exact litMatch_cons_ne ']' c _
          (hdrNotWs c (hs2sub c (by simp)))
          (hdrNoRb c (hs2sub c (by simp)))
  · -- empty message
    refine parse_log_eq_of_none st _ (parse_string_eq_none_of _
      (logLineOf_noTab s t n [] [] hssub htsub hnsub
        (fun c hc => nomatch hc) (fun c hc => nomatch hc)) ?_)
    exact logMatch_fail_emptymsg s t n hs hssub ht htsub hn hnsub

/-- C2 witness: the five malformed variants built from s = "A", s2 = "B",
t = "1", n = "n", m = "x" all fail and leave the fresh store unchanged. -/
theorem parse_log_malformed_witness :
    parse_log mkParseRos2Logs (String.mk (['A'] ++ ']' :: ' ' :: '[' ::
        (['1'] ++ ']' :: ' ' :: '[' :: (['n'] ++ ']' :: ':' :: ' ' :: ['x'])))) =
      (mkParseRos2Logs, ParseLogReturn.emptyList) ∧
    parse_log mkParseRos2Logs (String.mk ('[' :: (['A'] ++ ' ' :: '[' ::
        (['1'] ++ ']' :: ' ' :: '[' :: (['n'] ++ ']' :: ':' :: ' ' :: ['x']))))) =
      (mkParseRos2Logs, ParseLogReturn.emptyList) ∧
    parse_log mkParseRos2Logs (String.mk ('[' :: (['A'] ++ ']' :: ' ' :: '[' ::
        (['1'] ++ ']' :: ' ' :: '[' :: (['n'] ++ ']' :: ' ' :: ['x']))))) =
      (mkParseRos2Logs, ParseLogReturn.emptyList) ∧
    parse_log mkParseRos2Logs (String.mk ('[' :: (['A'] ++ ' ' :: (['B'] ++ ']' :: ' ' :: '[' ::
        (['1'] ++ ']' :: ' ' :: '[' :: (['n'] ++ ']' :: ':' :: ' ' :: ['x'])))))) =
      (mkParseRos2Logs, ParseLogReturn.emptyList) ∧
    parse_log mkParseRos2Logs (String.mk (logLineOf ['A'] ['1'] ['n'] [] [])) =
      (mkParseRos2Logs, ParseLogReturn.emptyList) :=
  parse_log_malformed mkParseRos2Logs ['A'] ['B'] ['1'] ['n'] ['x']
    (by decide) (by decide) (by decide) (by decide) (by decide) (by decide)
    (by decide) (by decide) (by decide) (by decide) (by decide) (by decide)

/-- C2 counterexample: `[A ] [1] [n]: x` has whitespace inside its first
bracket field, yet `parse_log` succeeds (severity "A") and appends to the
corpus instead of returning the failure marker and leaving it unchanged. -/
theorem parse_log_ws_in_bracket_succeeds :
    (parse_log mkParseRos2Logs "[A ] [1] [n]: x").2 =
      ParseLogReturn.result
        { log_severity := "A", timestamp := "1", node_name := "n", message := "x" } ∧
    (parse_log mkParseRos2Logs "[A ] [1] [n]: x").1.log_data.length = 1 := by
  decide

/-- C3 (amended): for every successfully matched line the message is the
maximal non-empty run of allowed message characters starting at the first
non-whitespace character after the colon; matching is not anchored at the
end of the line: trailing content outside the message character set does
not cause failure but is silently left unconsumed (here: any tab-free
`junk` whose first character is outside the message set). -/
theorem parse_string_greedy_unanchored (s t n m junk : List Char)
    (hs : s ≠ []) (hssub : ∀ c ∈ s, c ∈ headerWordChars)
    (ht : t ≠ []) (htsub : ∀ c ∈ t, c ∈ headerWordChars)
    (hn : n ≠ []) (hnsub : ∀ c ∈ n, c ∈ headerWordChars)
    (hm : m ≠ []) (hmsub : ∀ c ∈ m, c ∈ messageWordChars)
    (hmhead : m.head? ≠ some ' ')
    (hjhead : ∀ d, junk.head? = some d → messageWordChars.contains d = false)
    (hjtab : ∀ c ∈ junk, c ≠ '\t') :
    parse_string (String.mk (logLineOf s t n m junk)) =
      some { log_severity := String.mk s, timestamp := String.mk t,
             node_name := String.mk n, message := String.mk m } :=
  parse_string_eq_some_of _
    (logLineOf_noTab s t n m junk hssub htsub hnsub hmsub hjtab)
    _ junk
    (logMatch_template s t n m junk hs hssub ht htsub hn hnsub hm hmsub hmhead hjhead)

/-- C3 witness: `[A] [1] [n]: x` followed by the unconsumable rest
`\x01y` still parses, with message "x". -/
theorem parse_string_greedy_unanchored_witness :
    parse_string (String.mk (logLineOf ['A'] ['1'] ['n'] ['x'] ['\x01', 'y'])) =
      some { log_severity := String.mk ['A'], timestamp := String.mk ['1'],
             node_name := String.mk ['n'], message := String.mk ['x'] } :=
  parse_string_greedy_unanchored ['A'] ['1'] ['n'] ['x'] ['\x01', 'y']
    (by decide) (by decide) (by decide) (by decide) (by decide) (by decide)
    (by decide) (by decide) (by decide) (by decide) (by decide)

/-- C3 counterexample: the line `[A] [1] [n]: x` followed by `\x01y` has
trailing content the pattern cannot consume, yet parsing succeeds — with
the message truncated to "x" rather than the full remainder after the
colon separator. -/
theorem parse_string_trailing_junk_succeeds :
    parse_string "[A] [1] [n]: x\x01y" =
      some { log_severity := "A", timestamp := "1", node_name := "n", message := "x" } ∧
    ("x" : String) ≠ "x\x01y" := by
  decide

/-- Length of `filterMap` as a count of successes. -/
theorem length_filterMap_isSome (f : String → Option LogRecord) (l : List String) :
    (l.filterMap f).length = l.countP (fun x => (f x).isSome) :=
  List.length_filterMap_eq_countP f l

/-- C4: `parse_logs` over N lines returns a result list of length exactly N
whose i-th element is the image of the i-th input line under `lineItem`
(success entry or failure placeholder), and the corpus gains exactly the
successes among those lines, appended in submission order. -/
theorem parse_logs_batch (st : ParseRos2Logs) (targets : List String) (i : Nat) :
    (parse_logs st targets).2.length = targets.length ∧
    (parse_logs st targets).2 = targets.map lineItem ∧
    (parse_logs st targets).2[i]? = targets[i]?.map lineItem ∧
    (parse_logs st targets).1.log_data =
      st.log_data ++ targets.filterMap parse_string ∧
    (parse_logs st targets).1.log_data.length =
      st.log_data.length + targets.countP (fun x => (parse_string x).isSome) := by
  have h := parse_logs_spec targets st
  refine ⟨?_, h.1, ?_, h.2.1, ?_⟩
  · rw [h.1, List.length_map]
  · rw [h.1]
    exact List.getElem?_map lineItem targets i
  · rw [h.2.1, List.length_append, length_filterMap_isSome parse_string targets]

/-- C5: the README example line parses, and its list projection is exactly
the four expected fields. -/
theorem parse_log_readme_example :
    (parse_log mkParseRos2Logs
        "[INFO] [1673415247.564669534] [minimal_publisher]: Publishing: \"Hello World: 0\"").2 =
      ParseLogReturn.result
        { log_severity := "INFO", timestamp := "1673415247.564669534",
          node_name := "minimal_publisher", message := "Publishing: \"Hello World: 0\"" } ∧
    (get_logs_as_list (parse_log mkParseRos2Logs
        "[INFO] [1673415247.564669534] [minimal_publisher]: Publishing: \"Hello World: 0\"").1).2 =
      [["INFO", "1673415247.564669534", "minimal_publisher",
        "Publishing: \"Hello World: 0\""]] := by
  decide

/-- C6: the list projection, the dict projection and the corpus always have
the same length, in every store state (hence after any sequence of
`parse_log` / `parse_logs` calls). -/
theorem projection_lengths (st : ParseRos2Logs) :
    (get_logs_as_list st).2.length = st.log_data.length ∧
    (get_logs_as_dict st).2.length = st.log_data.length := by
  constructor
  · exact List.length_map st.log_data LogRecord.as_list
  · exact List.length_map st.log_data LogRecord.as_dict

/-- C7: `get_logs_as_list` and `get_logs_as_dict` are side-effect-free
reads: each returns the store unchanged, and calling either twice without
an intervening parse call yields identical results. -/
theorem projections_pure (st : ParseRos2Logs) :
    (get_logs_as_list st).1 = st ∧
    (get_logs_as_dict st).1 = st ∧
    (get_logs_as_list ((get_logs_as_list st).1)).2 = (get_logs_as_list st).2 ∧
    (get_logs_as_dict ((get_logs_as_dict st).1)).2 = (get_logs_as_dict st).2 :=
  ⟨rfl, rfl, rfl, rfl⟩

/-- C8: the failure markers at the public interface — `parse_log` returns
the empty list exactly when the line fails (and otherwise a four-field
result), and a `parse_logs` element is the empty-string placeholder exactly
when its line fails (and otherwise a four-field result): an element is
empty (length 0) if and only if that line failed to parse. -/
theorem failure_markers (st : ParseRos2Logs) (line : String)
    (ts : List String) (i : Nat) :
    ((parse_log st line).2 = ParseLogReturn.emptyList ↔ parse_string line = none) ∧
    ((parse_log st line).2.fieldCount = 0 ↔ parse_string line = none) ∧
    ((parse_log st line).2 = ParseLogReturn.emptyList ∨
      (parse_log st line).2.fieldCount = 4) ∧
    ((parse_logs st ts).2[i]? = ts[i]?.map lineItem) ∧
    (lineItem line = ParseLogsItem.emptyString ↔ parse_string line = none) ∧
    ((lineItem line).fieldCount = 0 ↔ parse_string line = none) ∧
    (lineItem line = ParseLogsItem.emptyString ∨ (lineItem line).fieldCount = 4) := by
  refine ⟨?_, ?_, ?_, ?_, ?_, ?_, ?_⟩ <;>
    first
    | (rw [(parse_logs_spec ts st).1]; exact List.getElem?_map lineItem ts i)
    | (cases hp : parse_string line <;>
        simp [parse_log, lineItem, hp, ParseLogReturn.fieldCount,
          ParseLogsItem.fieldCount, LogRecord.as_list])

/-- C9: in every reachable store state, `dict_keys` is the fixed key list
`["log_severity", "timestamp", "node_name", "message"]`. -/
theorem dict_keys_fixed (st : ParseRos2Logs) (h : Reachable st) :
    st.dict_keys = ["log_severity", "timestamp", "node_name", "message"] := by
  induction h with
  | init => rfl
  | stepOne st t _ ih => rw [parse_log_dict_keys st t]; exact ih
  | stepMany st ts _ ih => rw [(parse_logs_spec ts st).2.2]; exact ih

/-- C9 witness: the freshly constructed store. -/
theorem dict_keys_fixed_witness :
    mkParseRos2Logs.dict_keys =
      ["log_severity", "timestamp", "node_name", "message"] :=
  dict_keys_fixed mkParseRos2Logs Reachable.init

/-- C10: invoked without a second argv entry, or with one that `isfile`
rejects, `main` prints the usage message to standard output and exits with
status 0, never reaching store construction or parsing. -/
theorem main_invalid_invocation (argv : List String) (isfile : String → Bool)
    (abspath : String → String) (readlines : String → List String)
    (h : argv[1]? = none ∨ ∃ a, argv[1]? = some a ∧ isfile (abspath a) = false) :
    mainEntry argv isfile abspath readlines =
      MainOutcome.usage "Usage: parse_ros2_logs.py <log file path>" 0 := by
  unfold mainEntry
  rcases h with h | ⟨a, ha, hf⟩
  · rw [h]
  · rw [ha]
    simp [hf]

/-- C10 witness: an argv carrying only the program name, with collaborators
under which no file exists. -/
theorem main_invalid_invocation_witness :
    mainEntry ["parse_ros2_logs.py"] noFile idPath noLines =
      MainOutcome.usage "Usage: parse_ros2_logs.py <log file path>" 0 :=
  main_invalid_invocation ["parse_ros2_logs.py"] noFile idPath noLines (Or.inl rfl)
